import Mathlib

/-!
Verification of the SQL scalar-expression AST and its unparsing
(rendering) algorithm from `src/sql-parser/src/ast/defs/expr.rs`.

The recursive `Expr` sum type and the auxiliary window / function /
trim types are embedded as Lean inductives, and the `AstDisplay`
implementations are embedded as functions producing `Option String`:
the formatter only ever appends text, so a rendering is modelled as
the concatenation of the written pieces, and the one fatal condition
(indexing `Trim.exprs[0]` on an empty vector, a Rust panic) is
modelled as `none`.
-/

namespace Materialize

/-- Modelled from the spec: `Ident` is an external leaf type that this
core only renders; it is represented by its rendered text. -/
abbrev Ident := String

/-- Modelled from the spec: `ObjectName` is an external renderable
name, represented by its rendered text. -/
abbrev ObjectName := String

/-- Modelled from the spec: `DataType` is an external renderable type
name (e.g. `TEXT`, `INT4`), represented by its rendered text. -/
abbrev DataType := String

/-- Modelled from the spec: `Query` is an external renderable subquery,
opaque to this core, represented by its rendered text. -/
abbrev Query := String

/-- Modelled from the spec: `OrderByExpr` is an external renderable
ORDER BY item, represented by its rendered text. -/
abbrev OrderByExpr := String

/-- Modelled from the spec: `BinaryOperator` is an external renderable
operator, represented by its rendered symbol (e.g. `+`, `>`). -/
abbrev BinaryOperator := String

/-- Modelled from the spec: `UnaryOperator` is an external renderable
operator, represented by its rendered symbol. -/
abbrev UnaryOperator := String

/-- Modelled from the spec: `Value` is an external literal type ("a
literal value, such as string, number, date or NULL"); the `String`
variant is the one this core distinguishes (`Expr::is_string_literal`),
the remaining constructors stand for the non-string literal shapes. -/
inductive Value where
  | String (s : String)
  | Number (n : String)
  | Boolean (b : Bool)
  | Null
deriving DecidableEq

/-- `WindowFrameUnits` from the source: `Rows`, `Range`, `Groups`. -/
inductive WindowFrameUnits where
  | Rows
  | Range
  | Groups
deriving DecidableEq

/-- `WindowFrameBound` from the source: `CurrentRow`,
`Preceding(Option<u64>)`, `Following(Option<u64>)` (`None` meaning
`UNBOUNDED`). -/
inductive WindowFrameBound where
  | CurrentRow
  | Preceding (n : Option Nat)
  | Following (n : Option Nat)
deriving DecidableEq

/-- `WindowFrame` from the source: units, start bound, and an optional
end bound (`none` is the shorthand form). -/
structure WindowFrame where
  units : WindowFrameUnits
  start_bound : WindowFrameBound
  end_bound : Option WindowFrameBound
deriving DecidableEq

/-- `TrimSide` from the source: `Both`, `Leading`, `Trailing`. -/
inductive TrimSide where
  | Both
  | Leading
  | Trailing
deriving DecidableEq

mutual

/-- The `Expr` enum from the source, with the same variants in the same
order; `Box<Expr>` becomes a direct child, `Vec<Expr>` a `List Expr`. -/
inductive Expr where
  | Identifier (parts : List Ident)
  | QualifiedWildcard (parts : List Ident)
  | Parameter (n : Nat)
  | IsNull (e : Expr)
  | IsNotNull (e : Expr)
  | InList (expr : Expr) (list : List Expr) (negated : Bool)
  | InSubquery (expr : Expr) (subquery : Query) (negated : Bool)
  | Between (expr : Expr) (negated : Bool) (low : Expr) (high : Expr)
  | BinaryOp (left : Expr) (op : BinaryOperator) (right : Expr)
  | UnaryOp (op : UnaryOperator) (expr : Expr)
  | Cast (expr : Expr) (data_type : DataType)
  | Extract (field : String) (expr : Expr)
  | Trim (side : TrimSide) (exprs : List Expr)
  | Collate (expr : Expr) (collation : ObjectName)
  | Coalesce (exprs : List Expr)
  | Nested (e : Expr)
  | Row (exprs : List Expr)
  | Value (v : Value)
  | Function (f : Function)
  | Case (operand : Option Expr) (conditions : List Expr) (results : List Expr) (else_result : Option Expr)
  | Exists (q : Query)
  | Subquery (q : Query)
  | Any (left : Expr) (op : BinaryOperator) (right : Query) (some : Bool)
  | All (left : Expr) (op : BinaryOperator) (right : Query)
  | List (exprs : List Expr)

/-- The `Function` struct from the source
(`name`, `args`, `filter`, `over`, `distinct`). -/
inductive Function where
  | mk (name : ObjectName) (args : FunctionArgs) (filter : Option Expr) (over : Option WindowSpec) (distinct : Bool)

/-- The `FunctionArgs` enum from the source: `Star` or `Args(Vec<Expr>)`. -/
inductive FunctionArgs where
  | Star
  | Args (args : List Expr)

/-- The `WindowSpec` struct from the source
(`partition_by`, `order_by`, `window_frame`). -/
inductive WindowSpec where
  | mk (partition_by : List Expr) (order_by : List OrderByExpr) (window_frame : Option WindowFrame)

end

/-- Modelled from the spec: rendering of the external `Ident` type. -/
def renderIdent (i : Ident) : String := i

/-- Modelled from the spec: rendering of the external `Query` type. -/
def renderQuery (q : Query) : String := q

/-- Modelled from the spec: rendering of the external `ObjectName` type. -/
def renderObjectName (n : ObjectName) : String := n

/-- Modelled from the spec: rendering of the external `DataType` type. -/
def renderDataType (t : DataType) : String := t

/-- Modelled from the spec: rendering of the external operator types. -/
def renderOperator (op : String) : String := op

/-- Modelled from the spec: rendering of the external `OrderByExpr` type. -/
def renderOrderByExpr (o : OrderByExpr) : String := o

/-- Escaping of one character: a single quote (code point 39) is
doubled, any other character is kept. -/
def escapeChars : List Char → String
  | [] => ""
  | c :: cs => (if c.toNat == 39 then "''" else c.toString) ++ escapeChars cs

/-- Modelled from the spec: `display::escape_single_quote_string`, the
shared escaping helper (not under `src/`): it doubles each single quote
in the string. -/
def escapeSingleQuoteString (s : String) : String :=
  escapeChars s.data

/-- Modelled from the spec: rendering of the external `Value` type; a
string literal renders single-quoted with quotes escaped (the spec's
example: `Value(String("y"))` renders `'y'`). -/
def renderValue : Value → String
  | .String s => "'" ++ escapeSingleQuoteString s ++ "'"
  | .Number n => n
  | .Boolean true => "TRUE"
  | .Boolean false => "FALSE"
  | .Null => "NULL"

/-- `AstDisplay for TrimSide` from the source: the canonical function
names `btrim` / `ltrim` / `rtrim`. -/
def renderTrimSide : TrimSide → String
  | .Both => "btrim"
  | .Leading => "ltrim"
  | .Trailing => "rtrim"

/-- `AstDisplay for WindowFrameUnits` from the source. -/
def renderWindowFrameUnits : WindowFrameUnits → String
  | .Rows => "ROWS"
  | .Range => "RANGE"
  | .Groups => "GROUPS"

/-- `AstDisplay for WindowFrameBound` from the source. -/
def renderWindowFrameBound : WindowFrameBound → String
  | .CurrentRow => "CURRENT ROW"
  | .Preceding none => "UNBOUNDED PRECEDING"
  | .Following none => "UNBOUNDED FOLLOWING"
  | .Preceding (some n) => toString n ++ " PRECEDING"
  | .Following (some n) => toString n ++ " FOLLOWING"

/-- Modelled from the spec: `display::separated(s, ".")` — the parts,
rendered and joined by `.`. -/
def sepByDot (parts : List Ident) : String :=
  String.intercalate "." (parts.map renderIdent)

/-- The `needs_wrap` computation in the `Expr::Cast` arm of
`AstDisplay::fmt`: `false` exactly for the listed variants
(`Nested`, `Value`, `Cast`, `Function`, `Identifier`, `Extract`,
`Trim`, `Collate`, `Coalesce`), `true` for every other variant. -/
def needs_wrap : Expr → Bool
  | .Nested _ | .Value _ | .Cast _ _ | .Function _ | .Identifier _
  | .Extract _ _ | .Trim _ _ | .Collate _ _ | .Coalesce _ => false
  | _ => true

mutual

/-- `AstDisplay for Expr` (the `fmt` match) from the source, arm by
arm; the formatter's sequence of `write_str`/`write_node` calls becomes
string concatenation in the same order. The `Trim` arm's `exprs[0]`
indexing panics on an empty vector, which is modelled as `none`; the
inner match on `exprs` mirrors `exprs[0]`, the `exprs.len() == 2` test
and `exprs[1]`. -/
def renderExpr : Expr → Option String
  | .Identifier s => some (sepByDot s)
  | .QualifiedWildcard q => some (sepByDot q ++ ".*")
  | .Parameter n => some ("$" ++ toString n)
  | .IsNull ast => do return (← renderExpr ast) ++ " IS NULL"
  | .IsNotNull ast => do return (← renderExpr ast) ++ " IS NOT NULL"
  | .InList expr list negated => do
      return (← renderExpr expr) ++ " " ++ (if negated then "NOT " else "") ++ "IN ("
        ++ (← renderCommaSeparated list) ++ ")"
  | .InSubquery expr subquery negated => do
      return (← renderExpr expr) ++ " " ++ (if negated then "NOT " else "") ++ "IN ("
        ++ renderQuery subquery ++ ")"
  | .Between expr negated low high => do
      return (← renderExpr expr) ++ (if negated then " NOT" else "") ++ " BETWEEN "
        ++ (← renderExpr low) ++ " AND " ++ (← renderExpr high)
  | .BinaryOp left op right => do
      return (← renderExpr left) ++ " " ++ renderOperator op ++ " " ++ (← renderExpr right)
  | .UnaryOp op expr => do
      return renderOperator op ++ " " ++ (← renderExpr expr)
  | .Cast expr data_type => do
      let inner ← renderExpr expr
      return (if needs_wrap expr then "(" else "") ++ inner
        ++ (if needs_wrap expr then ")" else "") ++ "::" ++ renderDataType data_type
  | .Extract field expr => do
      return "EXTRACT(" ++ escapeSingleQuoteString field ++ " FROM " ++ (← renderExpr expr) ++ ")"
  | .Trim side exprs =>
      match exprs with
      | [] => none
      | [e0] => do
          return renderTrimSide side ++ "(" ++ (← renderExpr e0) ++ ")"
      | [e0, e1] => do
          return renderTrimSide side ++ "(" ++ (← renderExpr e0) ++ ", " ++ (← renderExpr e1) ++ ")"
      | e0 :: _ :: _ :: _ => do
          return renderTrimSide side ++ "(" ++ (← renderExpr e0) ++ ")"
  | .Collate expr collation => do
      return (← renderExpr expr) ++ " COLLATE " ++ renderObjectName collation
  | .Coalesce exprs => do
      return "COALESCE(" ++ (← renderCommaSeparated exprs) ++ ")"
  | .Nested ast => do return "(" ++ (← renderExpr ast) ++ ")"
  | .Row exprs => do return "ROW(" ++ (← renderCommaSeparated exprs) ++ ")"
  | .Value v => some (renderValue v)
  | .Function fn => renderFunction fn
  | .Case operand conditions results else_result => do
      let opPart ← match operand with
        | some op => do pure (" " ++ (← renderExpr op))
        | none => pure ""
      let pairs ← renderWhenThen conditions results
      let elsePart ← match else_result with
        | some e => do pure (" ELSE " ++ (← renderExpr e))
        | none => pure ""
      return "CASE" ++ opPart ++ pairs ++ elsePart ++ " END"
  | .Exists s => some ("EXISTS (" ++ renderQuery s ++ ")")
  | .Subquery s => some ("(" ++ renderQuery s ++ ")")
  | .Any left op right sm => do
      return (← renderExpr left) ++ " " ++ renderOperator op
        ++ (if sm then " SOME " else " ANY ") ++ "(" ++ renderQuery right ++ ")"
  | .All left op right => do
      return (← renderExpr left) ++ " " ++ renderOperator op ++ " ALL ("
        ++ renderQuery right ++ ")"
  | .List exprs => do return "LIST[" ++ (← renderCommaSeparated exprs) ++ "]"
termination_by e => sizeOf e
decreasing_by all_goals (simp_wf <;> omega)

/-- Modelled from the spec: `display::comma_separated` — the items,
rendered and joined by `, ` (also the loop in the `Expr::List` arm,
which writes `, ` between successive items). -/
def renderCommaSeparated : List Expr → Option String
  | [] => some ""
  | [e] => renderExpr e
  | e :: es => do return (← renderExpr e) ++ ", " ++ (← renderCommaSeparated es)
termination_by es => sizeOf es
decreasing_by all_goals (simp_wf <;> omega)

/-- The `for (c, r) in conditions.iter().zip(results)` loop of the
`Expr::Case` arm: one ` WHEN <c> THEN <r>` piece per zipped pair,
stopping at the shorter list. -/
def renderWhenThen : List Expr → List Expr → Option String
  | c :: cs, r :: rs => do
      return " WHEN " ++ (← renderExpr c) ++ " THEN " ++ (← renderExpr r)
        ++ (← renderWhenThen cs rs)
  | _, _ => some ""
termination_by cs rs => sizeOf cs + sizeOf rs
decreasing_by all_goals (simp_wf <;> omega)

/-- `AstDisplay for Function` from the source:
`name([DISTINCT ]<args>)[ FILTER (WHERE <filter>)][ OVER (<spec>)]`. -/
def renderFunction : Function → Option String
  | .mk name args filter over distinct => do
      let argsStr ← renderFunctionArgs args
      let filterStr ← match filter with
        | some flt => do pure (" FILTER (WHERE " ++ (← renderExpr flt) ++ ")")
        | none => pure ""
      let overStr ← match over with
        | some o => do pure (" OVER (" ++ (← renderWindowSpec o) ++ ")")
        | none => pure ""
      return renderObjectName name ++ "(" ++ (if distinct then "DISTINCT " else "")
        ++ argsStr ++ ")" ++ filterStr ++ overStr
termination_by f => sizeOf f
decreasing_by all_goals (simp_wf <;> omega)

/-- `AstDisplay for FunctionArgs` from the source. -/
def renderFunctionArgs : FunctionArgs → Option String
  | .Star => some "*"
  | .Args args => renderCommaSeparated args
termination_by a => sizeOf a
decreasing_by all_goals (simp_wf <;> omega)

/-- `AstDisplay for WindowSpec` from the source: the running `delim`
variable starts empty, each emitted clause writes the current `delim`
first and then sets it to a single space; the frame clause renders
`<units> BETWEEN <start> AND <end>` when `end_bound` is present and
`<units> <start>` when it is absent. -/
def renderWindowSpec : WindowSpec → Option String
  | .mk partition_by order_by window_frame => do
      let (out1, delim1) ←
        if partition_by.isEmpty then pure (("" : String), ("" : String))
        else do
          pure ("PARTITION BY " ++ (← renderCommaSeparated partition_by), " ")
      let (out2, delim2) :=
        if order_by.isEmpty then (out1, delim1)
        else (out1 ++ delim1 ++ "ORDER BY "
          ++ String.intercalate ", " (order_by.map renderOrderByExpr), " ")
      let out3 :=
        match window_frame with
        | none => out2
        | some wf =>
          match wf.end_bound with
          | some eb =>
            out2 ++ delim2 ++ renderWindowFrameUnits wf.units ++ " BETWEEN "
              ++ renderWindowFrameBound wf.start_bound ++ " AND " ++ renderWindowFrameBound eb
          | none =>
            out2 ++ delim2 ++ renderWindowFrameUnits wf.units ++ " "
              ++ renderWindowFrameBound wf.start_bound
      return out3
termination_by w => sizeOf w
decreasing_by all_goals (simp_wf <;> omega)

end

/-- `Expr::is_string_literal` from the source: `true` exactly for
`Expr::Value(Value::String(_))`. -/
def is_string_literal : Expr → Bool
  | .Value (Value.String _) => true
  | _ => false

/-- The variant tag (discriminant) of an `Expr`, numbered in source
order: 0 `Identifier`, 1 `QualifiedWildcard`, 2 `Parameter`, 3 `IsNull`,
4 `IsNotNull`, 5 `InList`, 6 `InSubquery`, 7 `Between`, 8 `BinaryOp`,
9 `UnaryOp`, 10 `Cast`, 11 `Extract`, 12 `Trim`, 13 `Collate`,
14 `Coalesce`, 15 `Nested`, 16 `Row`, 17 `Value`, 18 `Function`,
19 `Case`, 20 `Exists`, 21 `Subquery`, 22 `Any`, 23 `All`, 24 `List`. -/
def variantTag : Expr → Nat
  | .Identifier _ => 0
  | .QualifiedWildcard _ => 1
  | .Parameter _ => 2
  | .IsNull _ => 3
  | .IsNotNull _ => 4
  | .InList _ _ _ => 5
  | .InSubquery _ _ _ => 6
  | .Between _ _ _ _ => 7
  | .BinaryOp _ _ _ => 8
  | .UnaryOp _ _ => 9
  | .Cast _ _ => 10
  | .Extract _ _ => 11
  | .Trim _ _ => 12
  | .Collate _ _ => 13
  | .Coalesce _ => 14
  | .Nested _ => 15
  | .Row _ => 16
  | .Value _ => 17
  | .Function _ => 18
  | .Case _ _ _ _ => 19
  | .Exists _ => 20
  | .Subquery _ => 21
  | .Any _ _ _ _ => 22
  | .All _ _ _ => 23
  | .List _ => 24

/-- The spec's cast allow-list, stated in the spec's own terms: the
variant tags of `Nested`, `Value`, `Cast`, `Function`, `Identifier`,
`Extract`, `Trim`, `Collate`, `Coalesce`. -/
def castAllowTags : List Nat := [15, 17, 10, 18, 0, 11, 12, 13, 14]

/-- The spec's cast wrap condition, stated in the spec's own terms:
no parentheses are added iff the variant tag of the immediate child is
in the allow-list. -/
def specCastAllow (e : Expr) : Bool := castAllowTags.contains (variantTag e)

/-- Hash combinator used by the structural hash below (a tag is mixed
with the hashes of the fields, as `derive(Hash)` feeds the discriminant
and then each field to the hasher). -/
def cmb (a b : Nat) : Nat := a * 1000003 + b + 7

/-- Character-list hash underlying `hashString`. -/
def hashChars : List Char → Nat
  | [] => 5381
  | c :: cs => hashChars cs * 257 + c.toNat + 1

/-- A hash for the leaf strings of the tree. -/
def hashString (s : String) : Nat :=
  hashChars s.data

/-- Hash of a list of leaf strings. -/
def hashStringList (l : List String) : Nat :=
  l.foldl (fun h s => cmb h (hashString s)) 11

/-- Hash of a `Bool` field. -/
def hashBool : Bool → Nat
  | false => 0
  | true => 1

/-- Hash of an `Option` count field. -/
def hashOptNat : Option Nat → Nat
  | none => 0
  | some n => n + 1

/-- Structural hash of a `Value` (`derive(Hash)` on the external type). -/
def hashValue : Value → Nat
  | .String s => cmb 0 (hashString s)
  | .Number n => cmb 1 (hashString n)
  | .Boolean b => cmb 2 (hashBool b)
  | .Null => 3

/-- Structural hash of a `TrimSide` (`derive(Hash)`). -/
def hashTrimSide : TrimSide → Nat
  | .Both => 0
  | .Leading => 1
  | .Trailing => 2

/-- Structural hash of `WindowFrameUnits` (`derive(Hash)`). -/
def hashWindowFrameUnits : WindowFrameUnits → Nat
  | .Rows => 0
  | .Range => 1
  | .Groups => 2

/-- Structural hash of a `WindowFrameBound` (`derive(Hash)`). -/
def hashWindowFrameBound : WindowFrameBound → Nat
  | .CurrentRow => 0
  | .Preceding n => cmb 1 (hashOptNat n)
  | .Following n => cmb 2 (hashOptNat n)

/-- Structural hash of a `WindowFrame` (`derive(Hash)`). -/
def hashWindowFrame (wf : WindowFrame) : Nat :=
  cmb (hashWindowFrameUnits wf.units)
    (cmb (hashWindowFrameBound wf.start_bound)
      (match wf.end_bound with
       | none => 0
       | some b => hashWindowFrameBound b + 1))

mutual

/-- The structural hash of an `Expr`, embedding `#[derive(Hash)]`: the
variant tag is mixed with the recursive hashes of all fields, in field
order. -/
def hashExpr : Expr → Nat
  | .Identifier parts => cmb 0 (hashStringList parts)
  | .QualifiedWildcard parts => cmb 1 (hashStringList parts)
  | .Parameter n => cmb 2 n
  | .IsNull e => cmb 3 (hashExpr e)
  | .IsNotNull e => cmb 4 (hashExpr e)
  | .InList e l n => cmb 5 (cmb (hashExpr e) (cmb (hashExprList l) (hashBool n)))
  | .InSubquery e q n => cmb 6 (cmb (hashExpr e) (cmb (hashString q) (hashBool n)))
  | .Between e n lo hi =>
      cmb 7 (cmb (hashExpr e) (cmb (hashBool n) (cmb (hashExpr lo) (hashExpr hi))))
  | .BinaryOp l op r => cmb 8 (cmb (hashExpr l) (cmb (hashString op) (hashExpr r)))
  | .UnaryOp op e => cmb 9 (cmb (hashString op) (hashExpr e))
  | .Cast e t => cmb 10 (cmb (hashExpr e) (hashString t))
  | .Extract f e => cmb 11 (cmb (hashString f) (hashExpr e))
  | .Trim side es => cmb 12 (cmb (hashTrimSide side) (hashExprList es))
  | .Collate e c => cmb 13 (cmb (hashExpr e) (hashString c))
  | .Coalesce es => cmb 14 (hashExprList es)
  | .Nested e => cmb 15 (hashExpr e)
  | .Row es => cmb 16 (hashExprList es)
  | .Value v => cmb 17 (hashValue v)
  | .Function f => cmb 18 (hashFunction f)
  | .Case op cs rs el =>
      cmb 19 (cmb (hashExprOpt op) (cmb (hashExprList cs) (cmb (hashExprList rs) (hashExprOpt el))))
  | .Exists q => cmb 20 (hashString q)
  | .Subquery q => cmb 21 (hashString q)
  | .Any l op r sm => cmb 22 (cmb (hashExpr l) (cmb (hashString op) (cmb (hashString r) (hashBool sm))))
  | .All l op r => cmb 23 (cmb (hashExpr l) (cmb (hashString op) (hashString r)))
  | .List es => cmb 24 (hashExprList es)
termination_by e => sizeOf e
decreasing_by all_goals (simp_wf <;> omega)

/-- Hash of a `Vec<Expr>` field. -/
def hashExprList : List Expr → Nat
  | [] => 17
  | e :: es => cmb (hashExpr e) (hashExprList es)
termination_by es => sizeOf es
decreasing_by all_goals (simp_wf <;> omega)

/-- Hash of an `Option<Box<Expr>>` field. -/
def hashExprOpt : Option Expr → Nat
  | none => 19
  | some e => cmb 23 (hashExpr e)
termination_by o => sizeOf o
decreasing_by all_goals (simp_wf <;> omega)

/-- Hash of a `Function` node (`derive(Hash)` on `Function`). -/
def hashFunction : Function → Nat
  | .mk name args filter over distinct =>
      cmb (hashString name)
        (cmb (hashFunctionArgs args)
          (cmb (hashExprOpt filter) (cmb (hashWindowSpecOpt over) (hashBool distinct))))
termination_by f => sizeOf f
decreasing_by all_goals (simp_wf <;> omega)

/-- Hash of a `FunctionArgs` field (`derive(Hash)` on `FunctionArgs`). -/
def hashFunctionArgs : FunctionArgs → Nat
  | .Star => 29
  | .Args args => cmb 31 (hashExprList args)
termination_by a => sizeOf a
decreasing_by all_goals (simp_wf <;> omega)

/-- Hash of an `Option<WindowSpec>` field. -/
def hashWindowSpecOpt : Option WindowSpec → Nat
  | none => 37
  | some w => cmb 41 (hashWindowSpec w)
termination_by o => sizeOf o
decreasing_by all_goals (simp_wf <;> omega)

/-- Hash of a `WindowSpec` node (`derive(Hash)` on `WindowSpec`). -/
def hashWindowSpec : WindowSpec → Nat
  | .mk pb ob wf =>
      cmb (hashExprList pb)
        (cmb (hashStringList ob)
          (match wf with
           | none => 43
           | some f => cmb 47 (hashWindowFrame f)))
termination_by w => sizeOf w
decreasing_by all_goals (simp_wf <;> omega)

end

mutual

/-- Structural equality on `Expr`, embedding `#[derive(PartialEq, Eq)]`:
two values compare equal exactly when their variant tags coincide and
all corresponding fields compare equal recursively. -/
def exprBEq : Expr → Expr → Bool
  | .Identifier p1, b =>
      match b with
      | .Identifier p2 => p1 == p2
      | _ => false
  | .QualifiedWildcard p1, b =>
      match b with
      | .QualifiedWildcard p2 => p1 == p2
      | _ => false
  | .Parameter n1, b =>
      match b with
      | .Parameter n2 => n1 == n2
      | _ => false
  | .IsNull a, b =>
      match b with
      | .IsNull b0 => exprBEq a b0
      | _ => false
  | .IsNotNull a, b =>
      match b with
      | .IsNotNull b0 => exprBEq a b0
      | _ => false
  | .InList e1 l1 n1, b =>
      match b with
      | .InList e2 l2 n2 => exprBEq e1 e2 && exprListBEq l1 l2 && n1 == n2
      | _ => false
  | .InSubquery e1 q1 n1, b =>
      match b with
      | .InSubquery e2 q2 n2 => exprBEq e1 e2 && q1 == q2 && n1 == n2
      | _ => false
  | .Between e1 n1 lo1 hi1, b =>
      match b with
      | .Between e2 n2 lo2 hi2 => exprBEq e1 e2 && n1 == n2 && exprBEq lo1 lo2 && exprBEq hi1 hi2
      | _ => false
  | .BinaryOp l1 o1 r1, b =>
      match b with
      | .BinaryOp l2 o2 r2 => exprBEq l1 l2 && o1 == o2 && exprBEq r1 r2
      | _ => false
  | .UnaryOp o1 e1, b =>
      match b with
      | .UnaryOp o2 e2 => o1 == o2 && exprBEq e1 e2
      | _ => false
  | .Cast e1 t1, b =>
      match b with
      | .Cast e2 t2 => exprBEq e1 e2 && t1 == t2
      | _ => false
  | .Extract f1 e1, b =>
      match b with
      | .Extract f2 e2 => f1 == f2 && exprBEq e1 e2
      | _ => false
  | .Trim s1 es1, b =>
      match b with
      | .Trim s2 es2 => decide (s1 = s2) && exprListBEq es1 es2
      | _ => false
  | .Collate e1 c1, b =>
      match b with
      | .Collate e2 c2 => exprBEq e1 e2 && c1 == c2
      | _ => false
  | .Coalesce es1, b =>
      match b with
      | .Coalesce es2 => exprListBEq es1 es2
      | _ => false
  | .Nested a, b =>
      match b with
      | .Nested b0 => exprBEq a b0
      | _ => false
  | .Row es1, b =>
      match b with
      | .Row es2 => exprListBEq es1 es2
      | _ => false
  | .Value v1, b =>
      match b with
      | .Value v2 => decide (v1 = v2)
      | _ => false
  | .Function f1, b =>
      match b with
      | .Function f2 => funcBEq f1 f2
      | _ => false
  | .Case o1 c1 r1 e1, b =>
      match b with
      | .Case o2 c2 r2 e2 =>
          exprOptBEq o1 o2 && exprListBEq c1 c2 && exprListBEq r1 r2 && exprOptBEq e1 e2
      | _ => false
  | .Exists q1, b =>
      match b with
      | .Exists q2 => q1 == q2
      | _ => false
  | .Subquery q1, b =>
      match b with
      | .Subquery q2 => q1 == q2
      | _ => false
  | .Any l1 o1 r1 s1, b =>
      match b with
      | .Any l2 o2 r2 s2 => exprBEq l1 l2 && o1 == o2 && r1 == r2 && s1 == s2
      | _ => false
  | .All l1 o1 r1, b =>
      match b with
      | .All l2 o2 r2 => exprBEq l1 l2 && o1 == o2 && r1 == r2
      | _ => false
  | .List es1, b =>
      match b with
      | .List es2 => exprListBEq es1 es2
      | _ => false
termination_by a => sizeOf a
decreasing_by all_goals (simp_wf <;> omega)

/-- Structural equality on a `Vec<Expr>` field. -/
def exprListBEq : List Expr → List Expr → Bool
  | [], [] => true
  | x :: xs, y :: ys => exprBEq x y && exprListBEq xs ys
  | _, _ => false
termination_by xs ys => sizeOf xs
decreasing_by all_goals (simp_wf <;> omega)

/-- Structural equality on an `Option<Box<Expr>>` field. -/
def exprOptBEq : Option Expr → Option Expr → Bool
  | none, none => true
  | some x, some y => exprBEq x y
  | _, _ => false
termination_by o1 o2 => sizeOf o1
decreasing_by all_goals (simp_wf <;> omega)

/-- Structural equality on `Function` (`derive(PartialEq)`). -/
def funcBEq : Function → Function → Bool
  | .mk n1 a1 f1 o1 d1, .mk n2 a2 f2 o2 d2 =>
      n1 == n2 && funcArgsBEq a1 a2 && exprOptBEq f1 f2 && windowSpecOptBEq o1 o2 && d1 == d2
termination_by f1 f2 => sizeOf f1
decreasing_by all_goals (simp_wf <;> omega)

/-- Structural equality on `FunctionArgs` (`derive(PartialEq)`). -/
def funcArgsBEq : FunctionArgs → FunctionArgs → Bool
  | .Star, .Star => true
  | .Args a1, .Args a2 => exprListBEq a1 a2
  | _, _ => false
termination_by a1 a2 => sizeOf a1
decreasing_by all_goals (simp_wf <;> omega)

/-- Structural equality on an `Option<WindowSpec>` field. -/
def windowSpecOptBEq : Option WindowSpec → Option WindowSpec → Bool
  | none, none => true
  | some w1, some w2 => windowSpecBEq w1 w2
  | _, _ => false
termination_by o1 o2 => sizeOf o1
decreasing_by all_goals (simp_wf <;> omega)

/-- Structural equality on `WindowSpec` (`derive(PartialEq)`). -/
def windowSpecBEq : WindowSpec → WindowSpec → Bool
  | .mk pb1 ob1 wf1, .mk pb2 ob2 wf2 =>
      exprListBEq pb1 pb2 && ob1 == ob2 && decide (wf1 = wf2)
termination_by w1 w2 => sizeOf w1
decreasing_by all_goals (simp_wf <;> omega)

end

mutual

/-- The caller invariant of the `Trim` variant (spec: `Trim.exprs` has
length 1 or at least is non-empty): every `Trim` node in the tree has a
non-empty argument vector. -/
def trimArgsOk : Expr → Bool
  | .Identifier _ => true
  | .QualifiedWildcard _ => true
  | .Parameter _ => true
  | .IsNull e => trimArgsOk e
  | .IsNotNull e => trimArgsOk e
  | .InList e l _ => trimArgsOk e && trimArgsOkList l
  | .InSubquery e _ _ => trimArgsOk e
  | .Between e _ lo hi => trimArgsOk e && trimArgsOk lo && trimArgsOk hi
  | .BinaryOp l _ r => trimArgsOk l && trimArgsOk r
  | .UnaryOp _ e => trimArgsOk e
  | .Cast e _ => trimArgsOk e
  | .Extract _ e => trimArgsOk e
  | .Trim _ exprs => !exprs.isEmpty && trimArgsOkList exprs
  | .Collate e _ => trimArgsOk e
  | .Coalesce es => trimArgsOkList es
  | .Nested e => trimArgsOk e
  | .Row es => trimArgsOkList es
  | .Value _ => true
  | .Function f => trimArgsOkFunction f
  | .Case op cs rs el =>
      trimArgsOkOpt op && trimArgsOkList cs && trimArgsOkList rs && trimArgsOkOpt el
  | .Exists _ => true
  | .Subquery _ => true
  | .Any l _ _ _ => trimArgsOk l
  | .All l _ _ => trimArgsOk l
  | .List es => trimArgsOkList es
termination_by e => sizeOf e
decreasing_by all_goals (simp_wf <;> omega)

/-- The `Trim` invariant over a list of children. -/
def trimArgsOkList : List Expr → Bool
  | [] => true
  | e :: es => trimArgsOk e && trimArgsOkList es
termination_by es => sizeOf es
decreasing_by all_goals (simp_wf <;> omega)

/-- The `Trim` invariant over an optional child. -/
def trimArgsOkOpt : Option Expr → Bool
  | none => true
  | some e => trimArgsOk e
termination_by o => sizeOf o
decreasing_by all_goals (simp_wf <;> omega)

/-- The `Trim` invariant over a `Function` node. -/
def trimArgsOkFunction : Function → Bool
  | .mk _ args filter over _ =>
      trimArgsOkFunctionArgs args && trimArgsOkOpt filter && trimArgsOkWindowSpecOpt over
termination_by f => sizeOf f
decreasing_by all_goals (simp_wf <;> omega)

/-- The `Trim` invariant over `FunctionArgs`. -/
def trimArgsOkFunctionArgs : FunctionArgs → Bool
  | .Star => true
  | .Args args => trimArgsOkList args
termination_by a => sizeOf a
decreasing_by all_goals (simp_wf <;> omega)

/-- The `Trim` invariant over an optional `WindowSpec`. -/
def trimArgsOkWindowSpecOpt : Option WindowSpec → Bool
  | none => true
  | some w => trimArgsOkWindowSpec w
termination_by o => sizeOf o
decreasing_by all_goals (simp_wf <;> omega)

/-- The `Trim` invariant over a `WindowSpec` node. -/
def trimArgsOkWindowSpec : WindowSpec → Bool
  | .mk pb _ _ => trimArgsOkList pb
termination_by w => sizeOf w
decreasing_by all_goals (simp_wf <;> omega)

end

/-- The frame clause as the spec words it: `<units> BETWEEN <start> AND
<end>` when the end bound is present, `<units> <start>` when absent. -/
def frameClauseSpec (wf : WindowFrame) : String :=
  match wf.end_bound with
  | some eb =>
      renderWindowFrameUnits wf.units ++ " BETWEEN "
        ++ renderWindowFrameBound wf.start_bound ++ " AND " ++ renderWindowFrameBound eb
  | none =>
      renderWindowFrameUnits wf.units ++ " " ++ renderWindowFrameBound wf.start_bound

/-- The present-and-non-empty clauses of a `WindowSpec`, in order, as
the spec words them: `PARTITION BY <list>`, `ORDER BY <list>`, frame. -/
def windowSpecClauses : WindowSpec → Option (List String)
  | .mk pb ob wf => do
      let pbPart ←
        if pb.isEmpty then pure ([] : List String)
        else do pure ["PARTITION BY " ++ (← renderCommaSeparated pb)]
      let obPart :=
        if ob.isEmpty then ([] : List String)
        else ["ORDER BY " ++ String.intercalate ", " (ob.map renderOrderByExpr)]
      let wfPart :=
        match wf with
        | none => ([] : List String)
        | some f => [frameClauseSpec f]
      return pbPart ++ obPart ++ wfPart

/-- Clauses joined by single spaces, with no leading or trailing
separator (the spec's wording for `WindowSpec` rendering). -/
def joinSpace : List String → String
  | [] => ""
  | [c] => c
  | c :: cs => c ++ " " ++ joinSpace cs

/-- `WindowSpec` rendering as the spec words it: the present-and-non-
empty clauses, space-joined. -/
def windowSpecSpec (w : WindowSpec) : Option String :=
  (windowSpecClauses w).map joinSpace


theorem is_string_literal_iff :
    ∀ e : Expr, is_string_literal e = true ↔ ∃ s, e = Expr.Value (Value.String s) := by
  intro e
  cases e
  case Value v => cases v <;> simp [is_string_literal]
  all_goals simp [is_string_literal]

theorem needs_wrap_spec : ∀ e : Expr, needs_wrap e = !specCastAllow e := by
  intro e
  cases e <;> simp [needs_wrap, specCastAllow, variantTag, castAllowTags]

theorem cast_general (e : Expr) (dt : DataType) (s : String) (h : renderExpr e = some s) :
    renderExpr (.Cast e dt) =
      some ((if specCastAllow e then s else "(" ++ s ++ ")") ++ "::" ++ dt) := by
  cases hA : specCastAllow e <;>
    simp [renderExpr, h, renderDataType, needs_wrap_spec, hA, String.append_assoc]

theorem cast_conc1 : renderExpr (.Cast (.Identifier ["x"]) "TEXT") = some "x::TEXT" := by
  simp [renderExpr, needs_wrap, sepByDot, renderIdent, renderDataType]
  rfl

theorem cast_conc2 :
    renderExpr (.Cast (.BinaryOp (.Identifier ["a"]) "+" (.Identifier ["b"])) "INT4")
      = some "(a + b)::INT4" := by
  simp [renderExpr, needs_wrap, sepByDot, renderIdent, renderDataType, renderOperator]
  rfl

theorem renderWhenThen_take (cs rs : List Expr) :
    renderWhenThen cs rs =
      renderWhenThen (cs.take (min cs.length rs.length)) (rs.take (min cs.length rs.length)) := by
  induction cs generalizing rs with
  | nil => simp [renderWhenThen]
  | cons c cs ih =>
    cases rs with
    | nil => simp [renderWhenThen]
    | cons r rs =>
      simp only [List.length_cons, Nat.succ_min_succ, List.take_succ_cons]
      simp only [renderWhenThen]
      rw [← ih rs]

theorem renderExpr_case (op : Option Expr) (cs rs : List Expr) (el : Option Expr) :
    renderExpr (.Case op cs rs el) = do
      let opPart ← match op with
        | some o => do pure (" " ++ (← renderExpr o))
        | none => pure ""
      let pairs ← renderWhenThen cs rs
      let elsePart ← match el with
        | some e => do pure (" ELSE " ++ (← renderExpr e))
        | none => pure ""
      return "CASE" ++ opPart ++ pairs ++ elsePart ++ " END" := by
  rw [renderExpr.eq_def]

theorem case_take (op : Option Expr) (cs rs : List Expr) (el : Option Expr) :
    renderExpr (.Case op cs rs el) =
      renderExpr (.Case op (cs.take (min cs.length rs.length)) (rs.take (min cs.length rs.length)) el) := by
  rw [renderExpr_case, renderExpr_case, ← renderWhenThen_take cs rs]

theorem case_conc :
    renderExpr (.Case none [.Identifier ["c0"], .Identifier ["c1"]]
        [.Identifier ["r0"], .Identifier ["r1"]] (some (.Identifier ["e"])))
      = some "CASE WHEN c0 THEN r0 WHEN c1 THEN r1 ELSE e END" := by
  simp [renderExpr, renderWhenThen, sepByDot, renderIdent]
  rfl

theorem trim_one (side : TrimSide) (e0 : Expr) (s0 : String) (h : renderExpr e0 = some s0) :
    renderExpr (.Trim side [e0]) = some (renderTrimSide side ++ "(" ++ s0 ++ ")") := by
  rw [renderExpr.eq_def]
  simp [h]

theorem trim_two (side : TrimSide) (e0 e1 : Expr) (s0 s1 : String)
    (h0 : renderExpr e0 = some s0) (h1 : renderExpr e1 = some s1) :
    renderExpr (.Trim side [e0, e1]) = some (renderTrimSide side ++ "(" ++ s0 ++ ", " ++ s1 ++ ")") := by
  rw [renderExpr.eq_def]
  simp [h0, h1, String.append_assoc]

theorem trim_conc1 : renderExpr (.Trim .Leading [.Identifier ["x"]]) = some "ltrim(x)" := by
  simp [renderExpr, renderTrimSide, sepByDot, renderIdent]
  rfl

theorem trim_conc2 :
    renderExpr (.Trim .Both [.Identifier ["x"], .Value (.String "y")]) = some "btrim(x, 'y')" := by
  simp [renderExpr, renderTrimSide, sepByDot, renderIdent, renderValue, escapeSingleQuoteString, escapeChars]
  rfl

theorem any_general (left : Expr) (op : BinaryOperator) (q : Query) (sm : Bool) (s : String)
    (h : renderExpr left = some s) :
    renderExpr (.Any left op q sm)
      = some (s ++ " " ++ op ++ (if sm then " SOME " else " ANY ") ++ "(" ++ q ++ ")") := by
  cases sm <;> simp [renderExpr, h, renderOperator, renderQuery, String.append_assoc]

theorem any_true (left : Expr) (op : BinaryOperator) (q : Query) (s : String)
    (h : renderExpr left = some s) :
    renderExpr (.Any left op q true) = some (s ++ " " ++ op ++ " SOME (" ++ q ++ ")") := by
  simp [renderExpr, h, renderOperator, renderQuery, String.append_assoc]

theorem any_false (left : Expr) (op : BinaryOperator) (q : Query) (s : String)
    (h : renderExpr left = some s) :
    renderExpr (.Any left op q false) = some (s ++ " " ++ op ++ " ANY (" ++ q ++ ")") := by
  simp [renderExpr, h, renderOperator, renderQuery, String.append_assoc]

theorem all_general (left : Expr) (op : BinaryOperator) (q : Query) (s : String)
    (h : renderExpr left = some s) :
    renderExpr (.All left op q) = some (s ++ " " ++ op ++ " ALL (" ++ q ++ ")") := by
  simp [renderExpr, h, renderOperator, renderQuery, String.append_assoc]

theorem any_conc1 : renderExpr (.Any (.Identifier ["x"]) ">" "q" true) = some "x > SOME (q)" := by
  simp [renderExpr, sepByDot, renderIdent, renderOperator, renderQuery]
  rfl

theorem any_conc2 : renderExpr (.Any (.Identifier ["x"]) ">" "q" false) = some "x > ANY (q)" := by
  simp [renderExpr, sepByDot, renderIdent, renderOperator, renderQuery]
  rfl

theorem wf_between (u : WindowFrameUnits) (sb eb : WindowFrameBound) :
    renderWindowSpec (.mk [] [] (some ⟨u, sb, some eb⟩)) =
      some (renderWindowFrameUnits u ++ " BETWEEN " ++ renderWindowFrameBound sb
        ++ " AND " ++ renderWindowFrameBound eb) := by
  simp [renderWindowSpec, String.append_assoc]

theorem wf_short (u : WindowFrameUnits) (sb : WindowFrameBound) :
    renderWindowSpec (.mk [] [] (some ⟨u, sb, none⟩)) =
      some (renderWindowFrameUnits u ++ " " ++ renderWindowFrameBound sb) := by
  simp [renderWindowSpec, String.append_assoc]

theorem wf_conc1 :
    renderWindowSpec (.mk [] [] (some ⟨.Rows, .Preceding (some 5), none⟩)) = some "ROWS 5 PRECEDING" := by
  simp [renderWindowSpec, renderWindowFrameUnits, renderWindowFrameBound]
  rfl

theorem wf_conc2 :
    renderWindowSpec (.mk [] [] (some ⟨.Rows, .Preceding (some 5), some .CurrentRow⟩))
      = some "ROWS BETWEEN 5 PRECEDING AND CURRENT ROW" := by
  simp [renderWindowSpec, renderWindowFrameUnits, renderWindowFrameBound]
  rfl

theorem trim_three_plus (side : TrimSide) (exprs : List Expr) (h : 3 ≤ exprs.length) :
    renderExpr (.Trim side exprs) = renderExpr (.Trim side (exprs.take 1)) := by
  match exprs, h with
  | e0 :: e1 :: e2 :: rest, _ =>
    rw [renderExpr.eq_def]
    conv_rhs => rw [renderExpr.eq_def]
    simp

theorem trim_three_drop (side : TrimSide) (e0 e1 e2 : Expr) (rest : List Expr) (s0 : String)
    (h : renderExpr e0 = some s0) :
    renderExpr (.Trim side (e0 :: e1 :: e2 :: rest)) = some (renderTrimSide side ++ "(" ++ s0 ++ ")") := by
  rw [renderExpr.eq_def]
  simp [h]

theorem trim_drop_conc :
    renderExpr (.Trim .Both [.Identifier ["x"], .Identifier ["y"], .Identifier ["z"]]) = some "btrim(x)" := by
  simp [renderExpr, renderTrimSide, sepByDot, renderIdent]
  rfl

/-- Unfolding of `exprBEq` at a `Identifier` left argument. -/
theorem exprBEq_unfold_Identifier (p1 : _) (b : Expr) :
    exprBEq (.Identifier p1) b = match b with
      | .Identifier p2 => p1 == p2
      | _ => false := by
  rw [exprBEq.eq_def]

/-- Unfolding of `exprBEq` at a `QualifiedWildcard` left argument. -/
theorem exprBEq_unfold_QualifiedWildcard (p1 : _) (b : Expr) :
    exprBEq (.QualifiedWildcard p1) b = match b with
      | .QualifiedWildcard p2 => p1 == p2
      | _ => false := by
  rw [exprBEq.eq_def]

/-- Unfolding of `exprBEq` at a `Parameter` left argument. -/
theorem exprBEq_unfold_Parameter (n1 : _) (b : Expr) :
    exprBEq (.Parameter n1) b = match b with
      | .Parameter n2 => n1 == n2
      | _ => false := by
  rw [exprBEq.eq_def]

/-- Unfolding of `exprBEq` at a `IsNull` left argument. -/
theorem exprBEq_unfold_IsNull (a1 : _) (b : Expr) :
    exprBEq (.IsNull a1) b = match b with
      | .IsNull b0 => exprBEq a1 b0
      | _ => false := by
  rw [exprBEq.eq_def]

/-- Unfolding of `exprBEq` at a `IsNotNull` left argument. -/
theorem exprBEq_unfold_IsNotNull (a1 : _) (b : Expr) :
    exprBEq (.IsNotNull a1) b = match b with
      | .IsNotNull b0 => exprBEq a1 b0
      | _ => false := by
  rw [exprBEq.eq_def]

/-- Unfolding of `exprBEq` at a `InList` left argument. -/
theorem exprBEq_unfold_InList (e1 l1 n1 : _) (b : Expr) :
    exprBEq (.InList e1 l1 n1) b = match b with
      | .InList e2 l2 n2 => exprBEq e1 e2 && exprListBEq l1 l2 && n1 == n2
      | _ => false := by
  rw [exprBEq.eq_def]

/-- Unfolding of `exprBEq` at a `InSubquery` left argument. -/
theorem exprBEq_unfold_InSubquery (e1 q1 n1 : _) (b : Expr) :
    exprBEq (.InSubquery e1 q1 n1) b = match b with
      | .InSubquery e2 q2 n2 => exprBEq e1 e2 && q1 == q2 && n1 == n2
      | _ => false := by
  rw [exprBEq.eq_def]

/-- Unfolding of `exprBEq` at a `Between` left argument. -/
theorem exprBEq_unfold_Between (e1 n1 lo1 hi1 : _) (b : Expr) :
    exprBEq (.Between e1 n1 lo1 hi1) b = match b with
      | .Between e2 n2 lo2 hi2 => exprBEq e1 e2 && n1 == n2 && exprBEq lo1 lo2 && exprBEq hi1 hi2
      | _ => false := by
  rw [exprBEq.eq_def]

/-- Unfolding of `exprBEq` at a `BinaryOp` left argument. -/
theorem exprBEq_unfold_BinaryOp (l1 o1 r1 : _) (b : Expr) :
    exprBEq (.BinaryOp l1 o1 r1) b = match b with
      | .BinaryOp l2 o2 r2 => exprBEq l1 l2 && o1 == o2 && exprBEq r1 r2
      | _ => false := by
  rw [exprBEq.eq_def]

/-- Unfolding of `exprBEq` at a `UnaryOp` left argument. -/
theorem exprBEq_unfold_UnaryOp (o1 e1 : _) (b : Expr) :
    exprBEq (.UnaryOp o1 e1) b = match b with
      | .UnaryOp o2 e2 => o1 == o2 && exprBEq e1 e2
      | _ => false := by
  rw [exprBEq.eq_def]

/-- Unfolding of `exprBEq` at a `Cast` left argument. -/
theorem exprBEq_unfold_Cast (e1 t1 : _) (b : Expr) :
    exprBEq (.Cast e1 t1) b = match b with
      | .Cast e2 t2 => exprBEq e1 e2 && t1 == t2
      | _ => false := by
  rw [exprBEq.eq_def]

/-- Unfolding of `exprBEq` at a `Extract` left argument. -/
theorem exprBEq_unfold_Extract (f1 e1 : _) (b : Expr) :
    exprBEq (.Extract f1 e1) b = match b with
      | .Extract f2 e2 => f1 == f2 && exprBEq e1 e2
      | _ => false := by
  rw [exprBEq.eq_def]

/-- Unfolding of `exprBEq` at a `Trim` left argument. -/
theorem exprBEq_unfold_Trim (s1 es1 : _) (b : Expr) :
    exprBEq (.Trim s1 es1) b = match b with
      | .Trim s2 es2 => decide (s1 = s2) && exprListBEq es1 es2
      | _ => false := by
  rw [exprBEq.eq_def]

/-- Unfolding of `exprBEq` at a `Collate` left argument. -/
theorem exprBEq_unfold_Collate (e1 c1 : _) (b : Expr) :
    exprBEq (.Collate e1 c1) b = match b with
      | .Collate e2 c2 => exprBEq e1 e2 && c1 == c2
      | _ => false := by
  rw [exprBEq.eq_def]

/-- Unfolding of `exprBEq` at a `Coalesce` left argument. -/
theorem exprBEq_unfold_Coalesce (es1 : _) (b : Expr) :
    exprBEq (.Coalesce es1) b = match b with
      | .Coalesce es2 => exprListBEq es1 es2
      | _ => false := by
  rw [exprBEq.eq_def]

/-- Unfolding of `exprBEq` at a `Nested` left argument. -/
theorem exprBEq_unfold_Nested (a1 : _) (b : Expr) :
    exprBEq (.Nested a1) b = match b with
      | .Nested b0 => exprBEq a1 b0
      | _ => false := by
  rw [exprBEq.eq_def]

/-- Unfolding of `exprBEq` at a `Row` left argument. -/
theorem exprBEq_unfold_Row (es1 : _) (b : Expr) :
    exprBEq (.Row es1) b = match b with
      | .Row es2 => exprListBEq es1 es2
      | _ => false := by
  rw [exprBEq.eq_def]

/-- Unfolding of `exprBEq` at a `Value` left argument. -/
theorem exprBEq_unfold_Value (v1 : _) (b : Expr) :
    exprBEq (.Value v1) b = match b with
      | .Value v2 => decide (v1 = v2)
      | _ => false := by
  rw [exprBEq.eq_def]

/-- Unfolding of `exprBEq` at a `Function` left argument. -/
theorem exprBEq_unfold_Function (f1 : _) (b : Expr) :
    exprBEq (.Function f1) b = match b with
      | .Function f2 => funcBEq f1 f2
      | _ => false := by
  rw [exprBEq.eq_def]

/-- Unfolding of `exprBEq` at a `Case` left argument. -/
theorem exprBEq_unfold_Case (o1 c1 r1 e1 : _) (b : Expr) :
    exprBEq (.Case o1 c1 r1 e1) b = match b with
      | .Case o2 c2 r2 e2 => exprOptBEq o1 o2 && exprListBEq c1 c2 && exprListBEq r1 r2 && exprOptBEq e1 e2
      | _ => false := by
  rw [exprBEq.eq_def]

/-- Unfolding of `exprBEq` at a `Exists` left argument. -/
theorem exprBEq_unfold_Exists (q1 : _) (b : Expr) :
    exprBEq (.Exists q1) b = match b with
      | .Exists q2 => q1 == q2
      | _ => false := by
  rw [exprBEq.eq_def]

/-- Unfolding of `exprBEq` at a `Subquery` left argument. -/
theorem exprBEq_unfold_Subquery (q1 : _) (b : Expr) :
    exprBEq (.Subquery q1) b = match b with
      | .Subquery q2 => q1 == q2
      | _ => false := by
  rw [exprBEq.eq_def]

/-- Unfolding of `exprBEq` at a `Any` left argument. -/
theorem exprBEq_unfold_Any (l1 o1 r1 s1 : _) (b : Expr) :
    exprBEq (.Any l1 o1 r1 s1) b = match b with
      | .Any l2 o2 r2 s2 => exprBEq l1 l2 && o1 == o2 && r1 == r2 && s1 == s2
      | _ => false := by
  rw [exprBEq.eq_def]

/-- Unfolding of `exprBEq` at a `All` left argument. -/
theorem exprBEq_unfold_All (l1 o1 r1 : _) (b : Expr) :
    exprBEq (.All l1 o1 r1) b = match b with
      | .All l2 o2 r2 => exprBEq l1 l2 && o1 == o2 && r1 == r2
      | _ => false := by
  rw [exprBEq.eq_def]

/-- Unfolding of `exprBEq` at a `List` left argument. -/
theorem exprBEq_unfold_List (es1 : _) (b : Expr) :
    exprBEq (.List es1) b = match b with
      | .List es2 => exprListBEq es1 es2
      | _ => false := by
  rw [exprBEq.eq_def]

mutual

theorem exprBEq_refl (a : Expr) : exprBEq a a = true := by
  cases a with
  | Identifier parts => simp [exprBEq]
  | QualifiedWildcard parts => simp [exprBEq]
  | Parameter n => simp [exprBEq]
  | IsNull a => simp [exprBEq, exprBEq_refl a]
  | IsNotNull a => simp [exprBEq, exprBEq_refl a]
  | InList e l n => simp [exprBEq, exprBEq_refl e, exprListBEq_refl l]
  | InSubquery e q n => simp [exprBEq, exprBEq_refl e]
  | Between e n lo hi => simp [exprBEq, exprBEq_refl e, exprBEq_refl lo, exprBEq_refl hi]
  | BinaryOp l o r => simp [exprBEq, exprBEq_refl l, exprBEq_refl r]
  | UnaryOp o e => simp [exprBEq, exprBEq_refl e]
  | Cast e t => simp [exprBEq, exprBEq_refl e]
  | Extract f e => simp [exprBEq, exprBEq_refl e]
  | Trim s es => simp [exprBEq, exprListBEq_refl es]
  | Collate e c => simp [exprBEq, exprBEq_refl e]
  | Coalesce es => simp [exprBEq, exprListBEq_refl es]
  | Nested e => simp [exprBEq, exprBEq_refl e]
  | Row es => simp [exprBEq, exprListBEq_refl es]
  | Value v => simp [exprBEq]
  | Function f => simp [exprBEq, funcBEq_refl f]
  | Case op cs rs el =>
      simp [exprBEq, exprOptBEq_refl op, exprListBEq_refl cs, exprListBEq_refl rs, exprOptBEq_refl el]
  | Exists q => simp [exprBEq]
  | Subquery q => simp [exprBEq]
  | Any l o r sm => simp [exprBEq, exprBEq_refl l]
  | All l o r => simp [exprBEq, exprBEq_refl l]
  | List es => simp [exprBEq, exprListBEq_refl es]
termination_by sizeOf a
decreasing_by all_goals (simp_wf <;> omega)

theorem exprListBEq_refl (xs : List Expr) : exprListBEq xs xs = true := by
  cases xs with
  | nil => simp [exprListBEq]
  | cons x t => simp [exprListBEq, exprBEq_refl x, exprListBEq_refl t]
termination_by sizeOf xs
decreasing_by all_goals (simp_wf <;> omega)

theorem exprOptBEq_refl (o : Option Expr) : exprOptBEq o o = true := by
  cases o with
  | none => simp [exprOptBEq]
  | some e => simp [exprOptBEq, exprBEq_refl e]
termination_by sizeOf o
decreasing_by all_goals (simp_wf <;> omega)

theorem funcBEq_refl (f : Function) : funcBEq f f = true := by
  cases f with
  | mk n a fl o d =>
      simp [funcBEq, funcArgsBEq_refl a, exprOptBEq_refl fl, windowSpecOptBEq_refl o]
termination_by sizeOf f
decreasing_by all_goals (simp_wf <;> omega)

theorem funcArgsBEq_refl (a : FunctionArgs) : funcArgsBEq a a = true := by
  cases a with
  | Star => simp [funcArgsBEq]
  | Args l => simp [funcArgsBEq, exprListBEq_refl l]
termination_by sizeOf a
decreasing_by all_goals (simp_wf <;> omega)

theorem windowSpecOptBEq_refl (o : Option WindowSpec) : windowSpecOptBEq o o = true := by
  cases o with
  | none => simp [windowSpecOptBEq]
  | some w => simp [windowSpecOptBEq, windowSpecBEq_refl w]
termination_by sizeOf o
decreasing_by all_goals (simp_wf <;> omega)

theorem windowSpecBEq_refl (w : WindowSpec) : windowSpecBEq w w = true := by
  cases w with
  | mk pb ob wf => simp [windowSpecBEq, exprListBEq_refl pb]
termination_by sizeOf w
decreasing_by all_goals (simp_wf <;> omega)

end

mutual

theorem exprBEq_eq : ∀ (a b : Expr), exprBEq a b = true → a = b
  | .Identifier p1, b, h => by
      rw [exprBEq_unfold_Identifier] at h
      split at h
      · rename_i p2
        rw [eq_of_beq h]
      · exact Bool.noConfusion h
  | .QualifiedWildcard p1, b, h => by
      rw [exprBEq_unfold_QualifiedWildcard] at h
      split at h
      · rename_i p2
        rw [eq_of_beq h]
      · exact Bool.noConfusion h
  | .Parameter n1, b, h => by
      rw [exprBEq_unfold_Parameter] at h
      split at h
      · rename_i n2
        rw [eq_of_beq h]
      · exact Bool.noConfusion h
  | .IsNull a1, b, h => by
      rw [exprBEq_unfold_IsNull] at h
      split at h
      · rename_i b0
        rw [exprBEq_eq a1 b0 h]
      · exact Bool.noConfusion h
  | .IsNotNull a1, b, h => by
      rw [exprBEq_unfold_IsNotNull] at h
      split at h
      · rename_i b0
        rw [exprBEq_eq a1 b0 h]
      · exact Bool.noConfusion h
  | .InList e1 l1 n1, b, h => by
      rw [exprBEq_unfold_InList] at h
      split at h
      · rename_i e2 l2 n2
        simp only [Bool.and_eq_true] at h
        rw [exprBEq_eq e1 e2 h.1.1, exprListBEq_eq l1 l2 h.1.2, eq_of_beq h.2]
      · exact Bool.noConfusion h
  | .InSubquery e1 q1 n1, b, h => by
      rw [exprBEq_unfold_InSubquery] at h
      split at h
      · rename_i e2 q2 n2
        simp only [Bool.and_eq_true] at h
        rw [exprBEq_eq e1 e2 h.1.1, eq_of_beq h.1.2, eq_of_beq h.2]
      · exact Bool.noConfusion h
  | .Between e1 n1 lo1 hi1, b, h => by
      rw [exprBEq_unfold_Between] at h
      split at h
      · rename_i e2 n2 lo2 hi2
        simp only [Bool.and_eq_true] at h
        rw [exprBEq_eq e1 e2 h.1.1.1, eq_of_beq h.1.1.2, exprBEq_eq lo1 lo2 h.1.2, exprBEq_eq hi1 hi2 h.2]
      · exact Bool.noConfusion h
  | .BinaryOp l1 o1 r1, b, h => by
      rw [exprBEq_unfold_BinaryOp] at h
      split at h
      · rename_i l2 o2 r2
        simp only [Bool.and_eq_true] at h
        rw [exprBEq_eq l1 l2 h.1.1, eq_of_beq h.1.2, exprBEq_eq r1 r2 h.2]
      · exact Bool.noConfusion h
  | .UnaryOp o1 e1, b, h => by
      rw [exprBEq_unfold_UnaryOp] at h
      split at h
      · rename_i o2 e2
        simp only [Bool.and_eq_true] at h
        rw [eq_of_beq h.1, exprBEq_eq e1 e2 h.2]
      · exact Bool.noConfusion h
  | .Cast e1 t1, b, h => by
      rw [exprBEq_unfold_Cast] at h
      split at h
      · rename_i e2 t2
        simp only [Bool.and_eq_true] at h
        rw [exprBEq_eq e1 e2 h.1, eq_of_beq h.2]
      · exact Bool.noConfusion h
  | .Extract f1 e1, b, h => by
      rw [exprBEq_unfold_Extract] at h
      split at h
      · rename_i f2 e2
        simp only [Bool.and_eq_true] at h
        rw [eq_of_beq h.1, exprBEq_eq e1 e2 h.2]
      · exact Bool.noConfusion h
  | .Trim s1 es1, b, h => by
      rw [exprBEq_unfold_Trim] at h
      split at h
      · rename_i s2 es2
        simp only [Bool.and_eq_true] at h
        rw [of_decide_eq_true h.1, exprListBEq_eq es1 es2 h.2]
      · exact Bool.noConfusion h
  | .Collate e1 c1, b, h => by
      rw [exprBEq_unfold_Collate] at h
      split at h
      · rename_i e2 c2
        simp only [Bool.and_eq_true] at h
        rw [exprBEq_eq e1 e2 h.1, eq_of_beq h.2]
      · exact Bool.noConfusion h
  | .Coalesce es1, b, h => by
      rw [exprBEq_unfold_Coalesce] at h
      split at h
      · rename_i es2
        rw [exprListBEq_eq es1 es2 h]
      · exact Bool.noConfusion h
  | .Nested a1, b, h => by
      rw [exprBEq_unfold_Nested] at h
      split at h
      · rename_i b0
        rw [exprBEq_eq a1 b0 h]
      · exact Bool.noConfusion h
  | .Row es1, b, h => by
      rw [exprBEq_unfold_Row] at h
      split at h
      · rename_i es2
        rw [exprListBEq_eq es1 es2 h]
      · exact Bool.noConfusion h
  | .Value v1, b, h => by
      rw [exprBEq_unfold_Value] at h
      split at h
      · rename_i v2
        rw [of_decide_eq_true h]
      · exact Bool.noConfusion h
  | .Function f1, b, h => by
      rw [exprBEq_unfold_Function] at h
      split at h
      · rename_i f2
        rw [funcBEq_eq f1 f2 h]
      · exact Bool.noConfusion h
  | .Case o1 c1 r1 e1, b, h => by
      rw [exprBEq_unfold_Case] at h
      split at h
      · rename_i o2 c2 r2 e2
        simp only [Bool.and_eq_true] at h
        rw [exprOptBEq_eq o1 o2 h.1.1.1, exprListBEq_eq c1 c2 h.1.1.2, exprListBEq_eq r1 r2 h.1.2, exprOptBEq_eq e1 e2 h.2]
      · exact Bool.noConfusion h
  | .Exists q1, b, h => by
      rw [exprBEq_unfold_Exists] at h
      split at h
      · rename_i q2
        rw [eq_of_beq h]
      · exact Bool.noConfusion h
  | .Subquery q1, b, h => by
      rw [exprBEq_unfold_Subquery] at h
      split at h
      · rename_i q2
        rw [eq_of_beq h]
      · exact Bool.noConfusion h
  | .Any l1 o1 r1 s1, b, h => by
      rw [exprBEq_unfold_Any] at h
      split at h
      · rename_i l2 o2 r2 s2
        simp only [Bool.and_eq_true] at h
        rw [exprBEq_eq l1 l2 h.1.1.1, eq_of_beq h.1.1.2, eq_of_beq h.1.2, eq_of_beq h.2]
      · exact Bool.noConfusion h
  | .All l1 o1 r1, b, h => by
      rw [exprBEq_unfold_All] at h
      split at h
      · rename_i l2 o2 r2
        simp only [Bool.and_eq_true] at h
        rw [exprBEq_eq l1 l2 h.1.1, eq_of_beq h.1.2, eq_of_beq h.2]
      · exact Bool.noConfusion h
  | .List es1, b, h => by
      rw [exprBEq_unfold_List] at h
      split at h
      · rename_i es2
        rw [exprListBEq_eq es1 es2 h]
      · exact Bool.noConfusion h
termination_by a b h => sizeOf a
decreasing_by all_goals (simp_wf <;> omega)

theorem exprListBEq_eq : ∀ (xs ys : List Expr), exprListBEq xs ys = true → xs = ys
  | [], [], _ => rfl
  | [], y :: yt, h => by simp [exprListBEq] at h
  | x :: xt, [], h => by simp [exprListBEq] at h
  | x :: xt, y :: yt, h => by
      simp only [exprListBEq, Bool.and_eq_true] at h
      rw [exprBEq_eq x y h.1, exprListBEq_eq xt yt h.2]
termination_by xs ys h => sizeOf xs
decreasing_by all_goals (simp_wf <;> omega)

theorem exprOptBEq_eq : ∀ (o1 o2 : Option Expr), exprOptBEq o1 o2 = true → o1 = o2
  | none, none, _ => rfl
  | none, some y, h => by simp [exprOptBEq] at h
  | some x, none, h => by simp [exprOptBEq] at h
  | some x, some y, h => by
      simp only [exprOptBEq] at h
      rw [exprBEq_eq x y h]
termination_by o1 o2 h => sizeOf o1
decreasing_by all_goals (simp_wf <;> omega)

theorem funcBEq_eq : ∀ (f1 f2 : Function), funcBEq f1 f2 = true → f1 = f2
  | .mk n1 a1 fl1 o1 d1, .mk n2 a2 fl2 o2 d2, h => by
      simp only [funcBEq, Bool.and_eq_true] at h
      rw [eq_of_beq h.1.1.1.1, funcArgsBEq_eq a1 a2 h.1.1.1.2, exprOptBEq_eq fl1 fl2 h.1.1.2,
        windowSpecOptBEq_eq o1 o2 h.1.2, eq_of_beq h.2]
termination_by f1 f2 h => sizeOf f1
decreasing_by all_goals (simp_wf <;> omega)

theorem funcArgsBEq_eq : ∀ (a1 a2 : FunctionArgs), funcArgsBEq a1 a2 = true → a1 = a2
  | .Star, .Star, _ => rfl
  | .Star, .Args l, h => by simp [funcArgsBEq] at h
  | .Args l, .Star, h => by simp [funcArgsBEq] at h
  | .Args l1, .Args l2, h => by
      simp only [funcArgsBEq] at h
      rw [exprListBEq_eq l1 l2 h]
termination_by a1 a2 h => sizeOf a1
decreasing_by all_goals (simp_wf <;> omega)

theorem windowSpecOptBEq_eq :
    ∀ (o1 o2 : Option WindowSpec), windowSpecOptBEq o1 o2 = true → o1 = o2
  | none, none, _ => rfl
  | none, some w, h => by simp [windowSpecOptBEq] at h
  | some w1, none, h => by simp [windowSpecOptBEq] at h
  | some w1, some w2, h => by
      simp only [windowSpecOptBEq] at h
      rw [windowSpecBEq_eq w1 w2 h]
termination_by o1 o2 h => sizeOf o1
decreasing_by all_goals (simp_wf <;> omega)

theorem windowSpecBEq_eq : ∀ (w1 w2 : WindowSpec), windowSpecBEq w1 w2 = true → w1 = w2
  | .mk pb1 ob1 wf1, .mk pb2 ob2 wf2, h => by
      simp only [windowSpecBEq, Bool.and_eq_true] at h
      rw [exprListBEq_eq pb1 pb2 h.1.1, eq_of_beq h.1.2, of_decide_eq_true h.2]
termination_by w1 w2 h => sizeOf w1
decreasing_by all_goals (simp_wf <;> omega)

end

/-- The two directions together: the embedded `derive(PartialEq)`
comparison succeeds exactly on equal trees. -/
theorem exprBEq_iff (a b : Expr) : exprBEq a b = true ↔ a = b :=
  ⟨exprBEq_eq a b, fun h => h ▸ exprBEq_refl a⟩

mutual

theorem renderExpr_total : ∀ (e : Expr), trimArgsOk e = true → (renderExpr e).isSome = true
  | .Identifier parts, _ => by simp [renderExpr]
  | .QualifiedWildcard parts, _ => by simp [renderExpr]
  | .Parameter n, _ => by simp [renderExpr]
  | .IsNull a, h => by
      simp only [trimArgsOk] at h
      obtain ⟨s, hs⟩ := Option.isSome_iff_exists.mp (renderExpr_total a h)
      simp [renderExpr, hs]
  | .IsNotNull a, h => by
      simp only [trimArgsOk] at h
      obtain ⟨s, hs⟩ := Option.isSome_iff_exists.mp (renderExpr_total a h)
      simp [renderExpr, hs]
  | .InList e l n, h => by
      simp only [trimArgsOk, Bool.and_eq_true] at h
      obtain ⟨s1, hs1⟩ := Option.isSome_iff_exists.mp (renderExpr_total e h.1)
      obtain ⟨s2, hs2⟩ := Option.isSome_iff_exists.mp (renderCommaSeparated_total l h.2)
      simp [renderExpr, hs1, hs2]
  | .InSubquery e q n, h => by
      simp only [trimArgsOk] at h
      obtain ⟨s1, hs1⟩ := Option.isSome_iff_exists.mp (renderExpr_total e h)
      simp [renderExpr, hs1]
  | .Between e n lo hi, h => by
      simp only [trimArgsOk, Bool.and_eq_true] at h
      obtain ⟨s1, hs1⟩ := Option.isSome_iff_exists.mp (renderExpr_total e h.1.1)
      obtain ⟨s2, hs2⟩ := Option.isSome_iff_exists.mp (renderExpr_total lo h.1.2)
      obtain ⟨s3, hs3⟩ := Option.isSome_iff_exists.mp (renderExpr_total hi h.2)
      simp [renderExpr, hs1, hs2, hs3]
  | .BinaryOp l o r, h => by
      simp only [trimArgsOk, Bool.and_eq_true] at h
      obtain ⟨s1, hs1⟩ := Option.isSome_iff_exists.mp (renderExpr_total l h.1)
      obtain ⟨s2, hs2⟩ := Option.isSome_iff_exists.mp (renderExpr_total r h.2)
      simp [renderExpr, hs1, hs2]
  | .UnaryOp o e, h => by
      simp only [trimArgsOk] at h
      obtain ⟨s1, hs1⟩ := Option.isSome_iff_exists.mp (renderExpr_total e h)
      simp [renderExpr, hs1]
  | .Cast e t, h => by
      simp only [trimArgsOk] at h
      obtain ⟨s1, hs1⟩ := Option.isSome_iff_exists.mp (renderExpr_total e h)
      simp [renderExpr, hs1]
  | .Extract f e, h => by
      simp only [trimArgsOk] at h
      obtain ⟨s1, hs1⟩ := Option.isSome_iff_exists.mp (renderExpr_total e h)
      simp [renderExpr, hs1]
  | .Trim side [], h => by simp [trimArgsOk] at h
  | .Trim side [e0], h => by
      simp only [trimArgsOk, trimArgsOkList, Bool.and_eq_true] at h
      obtain ⟨s0, hs0⟩ := Option.isSome_iff_exists.mp (renderExpr_total e0 h.2.1)
      rw [renderExpr.eq_def]
      simp [hs0]
  | .Trim side [e0, e1], h => by
      simp only [trimArgsOk, trimArgsOkList, Bool.and_eq_true] at h
      obtain ⟨s0, hs0⟩ := Option.isSome_iff_exists.mp (renderExpr_total e0 h.2.1)
      obtain ⟨s1, hs1⟩ := Option.isSome_iff_exists.mp (renderExpr_total e1 h.2.2.1)
      rw [renderExpr.eq_def]
      simp [hs0, hs1]
  | .Trim side (e0 :: e1 :: e2 :: rest), h => by
      simp only [trimArgsOk, trimArgsOkList, Bool.and_eq_true] at h
      obtain ⟨s0, hs0⟩ := Option.isSome_iff_exists.mp (renderExpr_total e0 h.2.1)
      rw [renderExpr.eq_def]
      simp [hs0]
  | .Collate e c, h => by
      simp only [trimArgsOk] at h
      obtain ⟨s1, hs1⟩ := Option.isSome_iff_exists.mp (renderExpr_total e h)
      simp [renderExpr, hs1]
  | .Coalesce es, h => by
      simp only [trimArgsOk] at h
      obtain ⟨s1, hs1⟩ := Option.isSome_iff_exists.mp (renderCommaSeparated_total es h)
      simp [renderExpr, hs1]
  | .Nested e, h => by
      simp only [trimArgsOk] at h
      obtain ⟨s1, hs1⟩ := Option.isSome_iff_exists.mp (renderExpr_total e h)
      simp [renderExpr, hs1]
  | .Row es, h => by
      simp only [trimArgsOk] at h
      obtain ⟨s1, hs1⟩ := Option.isSome_iff_exists.mp (renderCommaSeparated_total es h)
      simp [renderExpr, hs1]
  | .Value v, _ => by simp [renderExpr]
  | .Function f, h => by
      simp only [trimArgsOk] at h
      have := renderFunction_total f h
      simpa [renderExpr] using this
  | .Case none cs rs none, h => by
      simp only [trimArgsOk, Bool.and_eq_true] at h
      obtain ⟨sp, hsp⟩ :=
        Option.isSome_iff_exists.mp (renderWhenThen_total cs rs h.1.1.2 h.1.2)
      simp [renderExpr, hsp]
  | .Case (some oo) cs rs none, h => by
      simp only [trimArgsOk, Bool.and_eq_true] at h
      have ho : trimArgsOk oo = true := by simpa [trimArgsOkOpt] using h.1.1.1
      obtain ⟨so, hso⟩ := Option.isSome_iff_exists.mp (renderExpr_total oo ho)
      obtain ⟨sp, hsp⟩ :=
        Option.isSome_iff_exists.mp (renderWhenThen_total cs rs h.1.1.2 h.1.2)
      simp [renderExpr, hso, hsp]
  | .Case none cs rs (some ee), h => by
      simp only [trimArgsOk, Bool.and_eq_true] at h
      have he : trimArgsOk ee = true := by simpa [trimArgsOkOpt] using h.2
      obtain ⟨se, hse⟩ := Option.isSome_iff_exists.mp (renderExpr_total ee he)
      obtain ⟨sp, hsp⟩ :=
        Option.isSome_iff_exists.mp (renderWhenThen_total cs rs h.1.1.2 h.1.2)
      simp [renderExpr, hse, hsp]
  | .Case (some oo) cs rs (some ee), h => by
      simp only [trimArgsOk, Bool.and_eq_true] at h
      have ho : trimArgsOk oo = true := by simpa [trimArgsOkOpt] using h.1.1.1
      have he : trimArgsOk ee = true := by simpa [trimArgsOkOpt] using h.2
      obtain ⟨so, hso⟩ := Option.isSome_iff_exists.mp (renderExpr_total oo ho)
      obtain ⟨se, hse⟩ := Option.isSome_iff_exists.mp (renderExpr_total ee he)
      obtain ⟨sp, hsp⟩ :=
        Option.isSome_iff_exists.mp (renderWhenThen_total cs rs h.1.1.2 h.1.2)
      simp [renderExpr, hso, hse, hsp]
  | .Exists q, _ => by simp [renderExpr]
  | .Subquery q, _ => by simp [renderExpr]
  | .Any l o r sm, h => by
      simp only [trimArgsOk] at h
      obtain ⟨s1, hs1⟩ := Option.isSome_iff_exists.mp (renderExpr_total l h)
      simp [renderExpr, hs1]
  | .All l o r, h => by
      simp only [trimArgsOk] at h
      obtain ⟨s1, hs1⟩ := Option.isSome_iff_exists.mp (renderExpr_total l h)
      simp [renderExpr, hs1]
  | .List es, h => by
      simp only [trimArgsOk] at h
      obtain ⟨s1, hs1⟩ := Option.isSome_iff_exists.mp (renderCommaSeparated_total es h)
      simp [renderExpr, hs1]
termination_by e h => sizeOf e
decreasing_by all_goals (simp_wf <;> omega)

theorem renderCommaSeparated_total :
    ∀ (es : List Expr), trimArgsOkList es = true → (renderCommaSeparated es).isSome = true
  | [], _ => by simp [renderCommaSeparated]
  | [e], h => by
      simp only [trimArgsOkList, Bool.and_eq_true] at h
      simpa [renderCommaSeparated] using renderExpr_total e h.1
  | e :: e2 :: t2, h => by
      simp only [trimArgsOkList, Bool.and_eq_true] at h
      obtain ⟨s1, hs1⟩ := Option.isSome_iff_exists.mp (renderExpr_total e h.1)
      obtain ⟨s2, hs2⟩ :=
        Option.isSome_iff_exists.mp (renderCommaSeparated_total (e2 :: t2) (by simp [trimArgsOkList, h.2.1, h.2.2]))
      simp [renderCommaSeparated, hs1, hs2]
termination_by es h => sizeOf es
decreasing_by all_goals (simp_wf <;> omega)

theorem renderWhenThen_total :
    ∀ (cs rs : List Expr), trimArgsOkList cs = true → trimArgsOkList rs = true →
      (renderWhenThen cs rs).isSome = true
  | [], rs, _, _ => by simp [renderWhenThen]
  | c :: ct, [], _, _ => by simp [renderWhenThen]
  | c :: ct, r :: rt, hc, hr => by
      simp only [trimArgsOkList, Bool.and_eq_true] at hc hr
      obtain ⟨s1, hs1⟩ := Option.isSome_iff_exists.mp (renderExpr_total c hc.1)
      obtain ⟨s2, hs2⟩ := Option.isSome_iff_exists.mp (renderExpr_total r hr.1)
      obtain ⟨s3, hs3⟩ := Option.isSome_iff_exists.mp (renderWhenThen_total ct rt hc.2 hr.2)
      simp [renderWhenThen, hs1, hs2, hs3]
termination_by cs rs hc hr => sizeOf cs + sizeOf rs
decreasing_by all_goals (simp_wf <;> omega)

theorem renderFunction_total :
    ∀ (f : Function), trimArgsOkFunction f = true → (renderFunction f).isSome = true
  | .mk name args none none distinct, h => by
      simp only [trimArgsOkFunction, Bool.and_eq_true] at h
      obtain ⟨sa, hsa⟩ := Option.isSome_iff_exists.mp (renderFunctionArgs_total args h.1.1)
      simp [renderFunction, hsa]
  | .mk name args (some fl) none distinct, h => by
      simp only [trimArgsOkFunction, Bool.and_eq_true] at h
      have hfl : trimArgsOk fl = true := by simpa [trimArgsOkOpt] using h.1.2
      obtain ⟨sa, hsa⟩ := Option.isSome_iff_exists.mp (renderFunctionArgs_total args h.1.1)
      obtain ⟨sf, hsf⟩ := Option.isSome_iff_exists.mp (renderExpr_total fl hfl)
      simp [renderFunction, hsa, hsf]
  | .mk name args none (some ov) distinct, h => by
      simp only [trimArgsOkFunction, Bool.and_eq_true] at h
      have hov : trimArgsOkWindowSpec ov = true := by simpa [trimArgsOkWindowSpecOpt] using h.2
      obtain ⟨sa, hsa⟩ := Option.isSome_iff_exists.mp (renderFunctionArgs_total args h.1.1)
      obtain ⟨so, hso⟩ := Option.isSome_iff_exists.mp (renderWindowSpec_total ov hov)
      simp [renderFunction, hsa, hso]
  | .mk name args (some fl) (some ov) distinct, h => by
      simp only [trimArgsOkFunction, Bool.and_eq_true] at h
      have hfl : trimArgsOk fl = true := by simpa [trimArgsOkOpt] using h.1.2
      have hov : trimArgsOkWindowSpec ov = true := by simpa [trimArgsOkWindowSpecOpt] using h.2
      obtain ⟨sa, hsa⟩ := Option.isSome_iff_exists.mp (renderFunctionArgs_total args h.1.1)
      obtain ⟨sf, hsf⟩ := Option.isSome_iff_exists.mp (renderExpr_total fl hfl)
      obtain ⟨so, hso⟩ := Option.isSome_iff_exists.mp (renderWindowSpec_total ov hov)
      simp [renderFunction, hsa, hsf, hso]
termination_by f h => sizeOf f
decreasing_by all_goals (simp_wf <;> omega)

theorem renderFunctionArgs_total :
    ∀ (a : FunctionArgs), trimArgsOkFunctionArgs a = true → (renderFunctionArgs a).isSome = true
  | .Star, _ => by simp [renderFunctionArgs]
  | .Args args, h => by
      simp only [trimArgsOkFunctionArgs] at h
      simpa [renderFunctionArgs] using renderCommaSeparated_total args h
termination_by a h => sizeOf a
decreasing_by all_goals (simp_wf <;> omega)

theorem renderWindowSpec_total :
    ∀ (w : WindowSpec), trimArgsOkWindowSpec w = true → (renderWindowSpec w).isSome = true
  | .mk [] ob wf, _ => by simp [renderWindowSpec]
  | .mk (p :: ps) ob wf, h => by
      simp only [trimArgsOkWindowSpec] at h
      obtain ⟨s, hs⟩ := Option.isSome_iff_exists.mp (renderCommaSeparated_total (p :: ps) h)
      simp [renderWindowSpec, hs]
termination_by w h => sizeOf w
decreasing_by all_goals (simp_wf <;> omega)

end

theorem windowSpec_spec_eq (w : WindowSpec) : renderWindowSpec w = windowSpecSpec w := by
  obtain ⟨pb, ob, wf⟩ := w
  cases pb with
  | nil =>
    rcases wf with _ | ⟨u, sb, _ | eb⟩ <;> cases ob <;>
      simp [renderWindowSpec, windowSpecSpec, windowSpecClauses, joinSpace, frameClauseSpec,
        String.append_assoc]
  | cons p ps =>
    cases h : renderCommaSeparated (p :: ps) with
    | none =>
      rcases wf with _ | ⟨u, sb, _ | eb⟩ <;> cases ob <;>
        simp [renderWindowSpec, windowSpecSpec, windowSpecClauses, joinSpace, frameClauseSpec, h]
    | some s =>
      rcases wf with _ | ⟨u, sb, _ | eb⟩ <;> cases ob <;>
        simp [renderWindowSpec, windowSpecSpec, windowSpecClauses, joinSpace, frameClauseSpec, h,
          String.append_assoc]

/-- C1: for every `Cast{expr, data_type}`, parentheses are emitted
around the rendered child iff the child's variant tag is not one of
Nested, Value, Cast, Function, Identifier, Extract, Trim, Collate,
Coalesce; in particular `Cast(Identifier ["x"], TEXT)` renders
`x::TEXT` and `Cast(BinaryOp(a, +, b), INT4)` renders `(a + b)::INT4`. -/
theorem cast_wrap_rule :
    (∀ e : Expr, needs_wrap e = !specCastAllow e)
    ∧ (∀ (e : Expr) (dt : DataType) (s : String), renderExpr e = some s →
        renderExpr (.Cast e dt) =
          some ((if specCastAllow e then s else "(" ++ s ++ ")") ++ "::" ++ dt))
    ∧ renderExpr (.Cast (.Identifier ["x"]) "TEXT") = some "x::TEXT"
    ∧ renderExpr (.Cast (.BinaryOp (.Identifier ["a"]) "+" (.Identifier ["b"])) "INT4")
        = some "(a + b)::INT4" :=
  ⟨needs_wrap_spec, cast_general, cast_conc1, cast_conc2⟩

/-- Witness for C1 at a concrete input: `Parameter 7` is not in the
allow-list, so the child is wrapped. -/
theorem cast_wrap_rule_witness :
    renderExpr (.Cast (.Parameter 7) "INT4") = some "($7)::INT4" := by
  have h := cast_wrap_rule.2.1 (.Parameter 7) "INT4" "$7" (by simp [renderExpr]; rfl)
  simpa [specCastAllow, variantTag, castAllowTags] using h

/-- C2: `Case` rendering pairs `conditions[i]` with `results[i]` for
`i < min(len(conditions), len(results))`, silently ignoring the excess
of the longer array, and emits `CASE [op] (WHEN c THEN r)* [ELSE e] END`;
the concrete two-pair example renders as stated. -/
theorem case_pairing :
    (∀ (op : Option Expr) (cs rs : List Expr) (el : Option Expr),
      renderExpr (.Case op cs rs el) =
        renderExpr (.Case op (cs.take (min cs.length rs.length))
          (rs.take (min cs.length rs.length)) el))
    ∧ renderExpr (.Case none [.Identifier ["c0"], .Identifier ["c1"]]
        [.Identifier ["r0"], .Identifier ["r1"]] (some (.Identifier ["e"])))
      = some "CASE WHEN c0 THEN r0 WHEN c1 THEN r1 ELSE e END" :=
  ⟨case_take, case_conc⟩

/-- C3: structural equality on `Expr` is consistent with the structural
hash (equal values hash equal), is reflexive, symmetric and transitive,
and holds exactly when the variant tags coincide and all fields are
recursively equal (it coincides with propositional equality of the
embedded trees). -/
theorem expr_eq_hash_consistency :
    (∀ a b : Expr, exprBEq a b = true → hashExpr a = hashExpr b)
    ∧ (∀ a : Expr, exprBEq a a = true)
    ∧ (∀ a b : Expr, exprBEq a b = true → exprBEq b a = true)
    ∧ (∀ a b c : Expr, exprBEq a b = true → exprBEq b c = true → exprBEq a c = true)
    ∧ (∀ a b : Expr, exprBEq a b = true → variantTag a = variantTag b)
    ∧ (∀ a b : Expr, exprBEq a b = true ↔ a = b) := by
  refine ⟨?_, exprBEq_refl, ?_, ?_, ?_,
    fun a b => ⟨exprBEq_eq a b, fun h => h ▸ exprBEq_refl a⟩⟩
  · intro a b h
    rw [exprBEq_eq a b h]
  · intro a b h
    rw [exprBEq_eq a b h]
    exact exprBEq_refl b
  · intro a b c h1 h2
    rw [exprBEq_eq a b h1]
    exact h2
  · intro a b h
    rw [exprBEq_eq a b h]

/-- Witness for C3 at concrete inputs: two equal trees hash equal. -/
theorem expr_eq_hash_consistency_witness :
    hashExpr (.IsNull (.Parameter 3)) = hashExpr (.IsNull (.Parameter 3)) :=
  expr_eq_hash_consistency.1 (.IsNull (.Parameter 3)) (.IsNull (.Parameter 3))
    (by simp [exprBEq])

/-- C4: a `WindowFrame` with no end bound renders in the shorthand form
`<units> <start>`, one with an end bound renders
`<units> BETWEEN <start> AND <end>`; in particular
`ROWS 5 PRECEDING` and `ROWS BETWEEN 5 PRECEDING AND CURRENT ROW`. -/
theorem window_frame_shorthand :
    (∀ (u : WindowFrameUnits) (sb eb : WindowFrameBound),
      renderWindowSpec (.mk [] [] (some ⟨u, sb, some eb⟩)) =
        some (renderWindowFrameUnits u ++ " BETWEEN " ++ renderWindowFrameBound sb
          ++ " AND " ++ renderWindowFrameBound eb))
    ∧ (∀ (u : WindowFrameUnits) (sb : WindowFrameBound),
      renderWindowSpec (.mk [] [] (some ⟨u, sb, none⟩)) =
        some (renderWindowFrameUnits u ++ " " ++ renderWindowFrameBound sb))
    ∧ renderWindowSpec (.mk [] [] (some ⟨.Rows, .Preceding (some 5), none⟩))
        = some "ROWS 5 PRECEDING"
    ∧ renderWindowSpec (.mk [] [] (some ⟨.Rows, .Preceding (some 5), some .CurrentRow⟩))
        = some "ROWS BETWEEN 5 PRECEDING AND CURRENT ROW" :=
  ⟨wf_between, wf_short, wf_conc1, wf_conc2⟩

/-- C5: `Trim{side, exprs}` renders as a function call named `btrim` /
`ltrim` / `rtrim` according to the side, applied to `exprs[0]` and, when
present, `exprs[1]`; in particular `ltrim(x)` and `btrim(x, 'y')`. -/
theorem trim_rendering :
    (renderTrimSide .Both = "btrim" ∧ renderTrimSide .Leading = "ltrim"
      ∧ renderTrimSide .Trailing = "rtrim")
    ∧ (∀ (side : TrimSide) (e0 : Expr) (s0 : String), renderExpr e0 = some s0 →
        renderExpr (.Trim side [e0]) = some (renderTrimSide side ++ "(" ++ s0 ++ ")"))
    ∧ (∀ (side : TrimSide) (e0 e1 : Expr) (s0 s1 : String),
        renderExpr e0 = some s0 → renderExpr e1 = some s1 →
        renderExpr (.Trim side [e0, e1])
          = some (renderTrimSide side ++ "(" ++ s0 ++ ", " ++ s1 ++ ")"))
    ∧ renderExpr (.Trim .Leading [.Identifier ["x"]]) = some "ltrim(x)"
    ∧ renderExpr (.Trim .Both [.Identifier ["x"], .Value (.String "y")]) = some "btrim(x, 'y')" :=
  ⟨⟨rfl, rfl, rfl⟩, trim_one, trim_two, trim_conc1, trim_conc2⟩

/-- Witness for C5 at a concrete input. -/
theorem trim_rendering_witness :
    renderExpr (.Trim .Trailing [.Parameter 2]) = some "rtrim($2)" := by
  have h := trim_rendering.2.1 .Trailing (.Parameter 2) "$2" (by simp [renderExpr]; rfl)
  simpa [renderTrimSide] using h

/-- C6: `Any` renders `<left> <op> SOME (<right>)` when `some` is true
and `<left> <op> ANY (<right>)` when false; `All` renders
`<left> <op> ALL (<right>)`; in particular `x > SOME (q)` / `x > ANY (q)`. -/
theorem quantified_keyword_fidelity :
    (∀ (left : Expr) (op : BinaryOperator) (q : Query) (s : String), renderExpr left = some s →
        renderExpr (.Any left op q true) = some (s ++ " " ++ op ++ " SOME (" ++ q ++ ")"))
    ∧ (∀ (left : Expr) (op : BinaryOperator) (q : Query) (s : String), renderExpr left = some s →
        renderExpr (.Any left op q false) = some (s ++ " " ++ op ++ " ANY (" ++ q ++ ")"))
    ∧ (∀ (left : Expr) (op : BinaryOperator) (q : Query) (s : String), renderExpr left = some s →
        renderExpr (.All left op q) = some (s ++ " " ++ op ++ " ALL (" ++ q ++ ")"))
    ∧ renderExpr (.Any (.Identifier ["x"]) ">" "q" true) = some "x > SOME (q)"
    ∧ renderExpr (.Any (.Identifier ["x"]) ">" "q" false) = some "x > ANY (q)" :=
  ⟨any_true, any_false, all_general, any_conc1, any_conc2⟩

/-- Witness for C6 at a concrete input. -/
theorem quantified_keyword_fidelity_witness :
    renderExpr (.Any (.Parameter 1) "=" "SELECT 1" true) = some "$1 = SOME (SELECT 1)" := by
  have h := quantified_keyword_fidelity.1 (.Parameter 1) "=" "SELECT 1" "$1"
    (by simp [renderExpr]; rfl)
  simpa using h

/-- C7: `WindowSpec` rendering emits exactly the present-and-non-empty
clauses among `PARTITION BY`, `ORDER BY` and the frame clause, joined
by single spaces with no leading or trailing separator; the empty spec
renders the empty string, and a spec with only a frame renders the bare
frame clause. -/
theorem window_spec_clause_joining :
    (∀ w : WindowSpec, renderWindowSpec w = windowSpecSpec w)
    ∧ renderWindowSpec (.mk [] [] none) = some ""
    ∧ (∀ wf : WindowFrame, renderWindowSpec (.mk [] [] (some wf)) = some (frameClauseSpec wf)) := by
  refine ⟨windowSpec_spec_eq, by simp [renderWindowSpec], ?_⟩
  intro wf
  rw [windowSpec_spec_eq]
  simp [windowSpecSpec, windowSpecClauses, joinSpace]

/-- C8: rendering a `Trim` hits the out-of-bounds index (the modelled
panic, `none`) exactly on an empty `exprs`; under the caller invariant
that every `Trim` node has non-empty arguments, rendering is total. -/
theorem trim_indexing_safety :
    (∀ side : TrimSide, renderExpr (.Trim side []) = none)
    ∧ (∀ (side : TrimSide) (exprs : List Expr), trimArgsOk (.Trim side exprs) = true →
        (renderExpr (.Trim side exprs)).isSome = true)
    ∧ (∀ e : Expr, trimArgsOk e = true → (renderExpr e).isSome = true) := by
  refine ⟨?_, fun side exprs h => renderExpr_total _ h, renderExpr_total⟩
  intro side
  rw [renderExpr.eq_def]

/-- Witness for C8 at a concrete input. -/
theorem trim_indexing_safety_witness :
    (renderExpr (.Trim .Both [.Parameter 1])).isSome = true :=
  trim_indexing_safety.2.2 (.Trim .Both [.Parameter 1])
    (by simp [trimArgsOk, trimArgsOkList])

/-- C9: `is_string_literal` returns true exactly on
`Value(Value::String(_))`, and false on every other variant, including
`Value` carrying a non-string literal. -/
theorem is_string_literal_spec :
    (∀ e : Expr, is_string_literal e = true ↔ ∃ s, e = Expr.Value (Value.String s))
    ∧ is_string_literal (.Value (.String "y")) = true
    ∧ is_string_literal (.Value (.Number "1")) = false
    ∧ is_string_literal (.Value .Null) = false :=
  ⟨is_string_literal_iff, rfl, rfl, rfl⟩

/-- C10: a `Trim` whose `exprs` has three or more elements renders only
`exprs[0]` inside the parentheses — the second argument is emitted
exactly when the length is 2, so everything beyond the first element is
silently dropped; in particular `btrim(x)` for a three-element list. -/
theorem trim_excess_args_dropped :
    (∀ (side : TrimSide) (exprs : List Expr), 3 ≤ exprs.length →
        renderExpr (.Trim side exprs) = renderExpr (.Trim side (exprs.take 1)))
    ∧ (∀ (side : TrimSide) (e0 e1 e2 : Expr) (rest : List Expr) (s0 : String),
        renderExpr e0 = some s0 →
        renderExpr (.Trim side (e0 :: e1 :: e2 :: rest))
          = some (renderTrimSide side ++ "(" ++ s0 ++ ")"))
    ∧ renderExpr (.Trim .Both [.Identifier ["x"], .Identifier ["y"], .Identifier ["z"]])
        = some "btrim(x)" :=
  ⟨trim_three_plus, trim_three_drop, trim_drop_conc⟩

/-- Witness for C10 at a concrete input. -/
theorem trim_excess_args_dropped_witness :
    renderExpr (.Trim .Leading [.Parameter 1, .Parameter 2, .Parameter 3])
      = renderExpr (.Trim .Leading [.Parameter 1]) := by
  have h := trim_excess_args_dropped.1 .Leading [.Parameter 1, .Parameter 2, .Parameter 3]
    (by simp)
  simpa using h

end Materialize
